import Mathlib

/-!
Verification of the `fm` / `jm` JMAP mail CLI (Go, package `cmd` plus
`internal/client`).

The shallow embedding below translates the Go source of `cmd/filters.go`
(flag inspection, filter parsing, target validation, target resolution,
date parsing) into Lean, together with the data shapes they operate on.
Cobra flag state is modelled as a record of per-flag values with a
"changed" bit, exactly the information `pflag` exposes through
`Flags().Lookup`, `Flags().Changed`, `GetString` and `GetBool`.  The JMAP
client is modelled as a pair of oracles (mailbox resolution and email
query); every network interaction is recorded in an explicit call trace so
that "no network call happens before X" claims are statable.

Errors: the Go code reports errors through `exitError(code, message,
hint)` and distinguishes them by message.  Each distinct `exitError` call
site in the embedded code is mapped to its own constructor of `CmdError`.
-/

deriving instance DecidableEq for Except

namespace JM

/-- Error values, one constructor per distinct `exitError` call site (or
safety-gate rejection) in the repository.
* `conflictingFilters`: exitError general_error, flagged/unflagged mutually exclusive
  (both in parseFilterOptions and in validateIDsOrFilters).
* `invalidDate which`: exitError general_error, invalid date in `--before` or `--after`.
* `mailboxNotFound msg`: exitError not_found from ResolveMailboxID failure.
* `ambiguousTargets`: exitError general_error, cannot combine email IDs with filter flags.
* `noTargets`: exitError general_error, no emails specified.
* `noMatches`: exitError not_found, no emails matched the given filters.
* `jmapError msg`: exitError jmap_error from a failed JMAP call.
* `forbiddenDestination`: the move safety gate rejection.
* `unsafeDraftRequest`: the draft safety gate rejection. -/
inductive CmdError where
  | conflictingFilters
  | invalidDate (which : String)
  | mailboxNotFound (msg : String)
  | ambiguousTargets
  | noTargets
  | noMatches
  | jmapError (msg : String)
  | forbiddenDestination
  | unsafeDraftRequest
  deriving DecidableEq, Repr

/-- Network interactions, recorded in call traces.  `createClient` stands
for `newClient()` (the authenticated session fetch), `resolveMailbox` for
`Mailbox/get` based resolution, `queryEmails` for `Email/query`, and
`emailSet` for the mutating `Email/set` call. -/
inductive Call where
  | createClient
  | resolveMailbox (name : String)
  | queryEmails
  | emailSet
  deriving DecidableEq, Repr

/-- Only `Email/set` mutates server state; the other calls are read-only. -/
def Call.isMutating : Call → Bool
  | .emailSet => true
  | _ => false

/-- A cobra string flag: its current value and whether it was explicitly
set on the command line (`Flags().Changed`).  An unset flag has the
default value "" and `changed = false`. -/
structure StrFlag where
  changed : Bool := false
  value : String := ""
  deriving DecidableEq, Repr

/-- A cobra boolean flag: its current value and whether it was explicitly
set.  An unset flag has the default value `false` and `changed = false`. -/
structure BoolFlag where
  changed : Bool := false
  value : Bool := false
  deriving DecidableEq, Repr

/-- The flag state of an action command, covering exactly the flags in
`filterFlagNames` (cmd/filters.go).  `toIsRecipientFilter` records whether
the registered `--to` flag has usage string `recipientToUsage` — that is
the condition `isRecipientToFilterFlag` tests in Go; on `move` the flag is
registered first as the destination flag with a different usage string, so
there it is `false`. -/
structure FlagSet where
  mailboxF : StrFlag := {}
  fromF : StrFlag := {}
  toF : StrFlag := {}
  subjectF : StrFlag := {}
  beforeF : StrFlag := {}
  afterF : StrFlag := {}
  hasAttachmentF : BoolFlag := {}
  unreadF : BoolFlag := {}
  flaggedF : BoolFlag := {}
  unflaggedF : BoolFlag := {}
  toIsRecipientFilter : Bool := true
  deriving DecidableEq, Repr

/-- Embeds `isRecipientToFilterFlag` (cmd/filters.go): the `--to` flag
exists (always true for commands using these helpers) and its usage string
equals `recipientToUsage`. -/
def isRecipientToFilterFlag (fs : FlagSet) : Bool :=
  fs.toIsRecipientFilter

/-- ASCII whitespace, as recognised by Go `unicode.IsSpace` in the ASCII
range (space, tab, newline, vertical tab, form feed, carriage return). -/
def isSpaceChar (c : Char) : Bool :=
  c = ' ' ∨ c = '\t' ∨ c = '\n' ∨ c = '\x0b' ∨ c = '\x0c' ∨ c = '\r'

/-- Embeds Go `strings.TrimSpace` (for ASCII whitespace): drop leading and
trailing whitespace characters. -/
def trimSpace (s : String) : String :=
  ⟨((s.data.dropWhile isSpaceChar).reverse.dropWhile isSpaceChar).reverse⟩

/-- ASCII lowercasing of one character, as Go lowercases the ASCII-only
mailbox names compared case-insensitively. -/
def lowerChar (c : Char) : Char :=
  if 'A' ≤ c ∧ c ≤ 'Z' then Char.ofNat (c.toNat + 32) else c

/-- ASCII lowercasing of a string. -/
def lowerString (s : String) : String :=
  ⟨s.data.map lowerChar⟩

/-- A string filter flag contributes in `hasFilterFlags` when it was
explicitly set and its trimmed value is non-empty (`strings.TrimSpace(value) != ""`). -/
def strActive (f : StrFlag) : Bool :=
  f.changed && trimSpace f.value != ""

/-- A boolean filter flag contributes in `hasFilterFlags` when it was
explicitly set and its value is `true`. -/
def boolActive (f : BoolFlag) : Bool :=
  f.changed && f.value

/-- Embeds `hasFilterFlags` (cmd/filters.go).  The Go loop walks
`filterFlagNames` in order and returns `true` at the first flag with an
effective value; that early-return loop is the disjunction below, in the
same flag order.  The `--to` flag is skipped on commands where it is the
destination flag rather than the recipient filter. -/
def hasFilterFlags (fs : FlagSet) : Bool :=
  strActive fs.mailboxF || strActive fs.fromF ||
  (isRecipientToFilterFlag fs && strActive fs.toF) ||
  strActive fs.subjectF || strActive fs.beforeF || strActive fs.afterF ||
  boolActive fs.hasAttachmentF || boolActive fs.unreadF ||
  boolActive fs.flaggedF || boolActive fs.unflaggedF

/-- A parsed timestamp, the result of `time.Parse`.  The parse result is
fully determined by the broken-down fields plus the zone offset, so this
record is the shallow embedding of the `time.Time` value a successful
parse produces.  Midnight UTC is all-zero time fields with offset 0. -/
structure Timestamp where
  year : Nat
  month : Nat
  day : Nat
  hour : Nat
  minute : Nat
  second : Nat
  nanos : Nat
  offsetMinutes : Int
  deriving DecidableEq, Repr

/-- Leap year test, as in Go `time.isLeap`. -/
def isLeapYear (y : Nat) : Bool :=
  y % 4 == 0 && (y % 100 != 0 || y % 400 == 0)

/-- Days in a month, as in Go `time.daysIn`. -/
def daysIn (m y : Nat) : Nat :=
  if m = 2 then (if isLeapYear y then 29 else 28)
  else if m = 4 ∨ m = 6 ∨ m = 9 ∨ m = 11 then 30
  else 31

/-- Numeric value of a decimal digit character, if it is one. -/
def digitVal (c : Char) : Option Nat :=
  if c.isDigit then some (c.toNat - 48) else none

/-- Reads exactly two decimal digits. -/
def read2 : List Char → Option (Nat × List Char)
  | a :: b :: r => do
    let x ← digitVal a
    let y ← digitVal b
    pure (x * 10 + y, r)
  | _ => none

/-- Reads exactly four decimal digits. -/
def read4 (l : List Char) : Option (Nat × List Char) := do
  let (hi, r) ← read2 l
  let (lo, r) ← read2 r
  pure (hi * 100 + lo, r)

/-- Expects one specific character. -/
def expect (c : Char) : List Char → Option (List Char)
  | d :: r => if d = c then some r else none
  | [] => none

/-- Fractional-second digits to nanoseconds, as Go `parseNanoseconds`:
at most nine digits are significant, fewer digits scale up. -/
def fracNanos (ds : List Char) : Nat :=
  let ds9 := ds.take 9
  let v := ds9.foldl (fun a c => a * 10 + (c.toNat - 48)) 0
  v * 10 ^ (9 - ds9.length)

/-- Optional fractional seconds, as in Go `parseRFC3339`: consumed only
when a dot directly followed by a digit is present. -/
def readFrac : List Char → Nat × List Char
  | '.' :: c :: rest =>
    if c.isDigit then
      (fracNanos ((c :: rest).takeWhile Char.isDigit),
       (c :: rest).dropWhile Char.isDigit)
    else (0, '.' :: c :: rest)
  | r => (0, r)

/-- Zone suffix, as in Go `parseRFC3339`: exactly `Z`, or exactly a sign
followed by `hh:mm` with `hh ≤ 23` and `mm ≤ 59`.  Returns the offset in
minutes east of UTC. -/
def readZone : List Char → Option Int
  | ['Z'] => some 0
  | [sign, h1, h2, sep, m1, m2] =>
    if (sign = '+' ∨ sign = '-') ∧ sep = ':' ∧
        h1.isDigit ∧ h2.isDigit ∧ m1.isDigit ∧ m2.isDigit then
      let hh := (h1.toNat - 48) * 10 + (h2.toNat - 48)
      let mm := (m1.toNat - 48) * 10 + (m2.toNat - 48)
      if hh ≤ 23 ∧ mm ≤ 59 then
        let off : Int := (hh * 60 + mm : Nat)
        some (if sign = '-' then -off else off)
      else none
    else none
  | _ => none

/-- Embeds Go function `time.parseRFC3339`, the strict fast path that
`time.Parse` tries first for the RFC 3339 layout: `YYYY-MM-DDThh:mm:ss`,
optional `.`-separated fractional seconds, then `Z` or `±hh:mm` with
`hh ≤ 23`, `mm ≤ 59`; field ranges are validated, including days in
month.  Go first rejects inputs shorter than the mandatory prefix. -/
def parseRFC3339fast (s : String) : Option Timestamp :=
  if s.length < 19 then none else do
    let (year, r) ← read4 s.data
    let r ← expect '-' r
    let (month, r) ← read2 r
    let r ← expect '-' r
    let (day, r) ← read2 r
    let r ← expect 'T' r
    let (hour, r) ← read2 r
    let r ← expect ':' r
    let (minute, r) ← read2 r
    let r ← expect ':' r
    let (second, r) ← read2 r
    let (nanos, r) := readFrac r
    let offsetMinutes ← readZone r
    if month = 0 ∨ month > 12 then none
    else if day = 0 ∨ day > daysIn month year then none
    else if hour > 23 ∨ minute > 59 ∨ second > 59 then none
    else some ⟨year, month, day, hour, minute, second, nanos, offsetMinutes⟩

/-- Reads the hour as Go `getnum(value, false)` does for the `15` layout
element: one digit, or two when a second digit follows (greedy, no
backtracking). -/
def readHour : List Char → Option (Nat × List Char)
  | a :: b :: r => do
    let x ← digitVal a
    match digitVal b with
    | some y => pure (x * 10 + y, r)
    | none => pure (x, b :: r)
  | [a] => do
    let x ← digitVal a
    pure (x, [])
  | [] => none

/-- Optional fractional seconds in Go's general layout parser: consumed
when a comma or period directly followed by a digit is present
(`commaOrPeriod` in the `stdZeroSecond` case of `time.parse`). -/
def readFracGeneral : List Char → Nat × List Char
  | c0 :: c :: rest =>
    if (c0 = '.' ∨ c0 = ',') ∧ c.isDigit then
      (fracNanos ((c :: rest).takeWhile Char.isDigit),
       (c :: rest).dropWhile Char.isDigit)
    else (0, c0 :: c :: rest)
  | r => (0, r)

/-- Zone suffix in Go's general layout parser (`stdISO8601ColonTZ` case
of `time.parse`): a sole `Z`, or a sign followed by `hh:mm` where the
hour and minute digits are read with no range check at all. -/
def readZoneGeneral : List Char → Option Int
  | ['Z'] => some 0
  | [sign, h1, h2, sep, m1, m2] =>
    if (sign = '+' ∨ sign = '-') ∧ sep = ':' ∧
        h1.isDigit ∧ h2.isDigit ∧ m1.isDigit ∧ m2.isDigit then
      let hh := (h1.toNat - 48) * 10 + (h2.toNat - 48)
      let mm := (m1.toNat - 48) * 10 + (m2.toNat - 48)
      let off : Int := (hh * 60 + mm : Nat)
      some (if sign = '-' then -off else off)
    else none
  | _ => none

/-- Embeds Go `time.parse` on the layout `2006-01-02T15:04:05Z07:00`, the
general parser `time.Parse` falls back to when the fast path does not
match.  It is more lenient than RFC 3339: the hour may be one digit
(`stdHour` is non-zero-padded), the fractional-second separator may be a
comma, and the numeric zone offset digits are not range-checked.  Month,
day (against days-in-month), hour, minute and second ranges are checked
as in `time.parse`, and no input may remain after the zone. -/
def parseRFC3339general (s : String) : Option Timestamp := do
  let (year, r) ← read4 s.data
  let r ← expect '-' r
  let (month, r) ← read2 r
  let r ← expect '-' r
  let (day, r) ← read2 r
  let r ← expect 'T' r
  let (hour, r) ← readHour r
  let r ← expect ':' r
  let (minute, r) ← read2 r
  let r ← expect ':' r
  let (second, r) ← read2 r
  let (nanos, r) := readFracGeneral r
  let offsetMinutes ← readZoneGeneral r
  if month = 0 ∨ month > 12 then none
  else if day = 0 ∨ day > daysIn month year then none
  else if hour > 23 ∨ minute > 59 ∨ second > 59 then none
  else some ⟨year, month, day, hour, minute, second, nanos, offsetMinutes⟩

/-- Embeds Go `time.Parse(time.RFC3339, s)`: the strict `parseRFC3339`
fast path is tried first and, when it does not match, `Parse` falls back
to the general layout parser (it does not reject strictly — only
`Time.UnmarshalJSON` and `Time.UnmarshalText` are strict-only). -/
def goParseRFC3339 (s : String) : Option Timestamp :=
  match parseRFC3339fast s with
  | some t => some t
  | none => parseRFC3339general s

/-- Embeds Go `time.Parse("2006-01-02", s)`: exactly ten characters
`YYYY-MM-DD`, all digit positions decimal, month and day range-checked.
The parse default location is UTC and all time-of-day fields default to
zero, so the result is midnight UTC of that calendar day. -/
def goParseBareDate (s : String) : Option Timestamp :=
  match s.data with
  | [y1, y2, y3, y4, s1, m1, m2, s2, d1, d2] =>
    if s1 = '-' ∧ s2 = '-' ∧ y1.isDigit ∧ y2.isDigit ∧ y3.isDigit ∧ y4.isDigit ∧
        m1.isDigit ∧ m2.isDigit ∧ d1.isDigit ∧ d2.isDigit then
      let y := ((y1.toNat - 48) * 10 + (y2.toNat - 48)) * 100 +
               ((y3.toNat - 48) * 10 + (y4.toNat - 48))
      let mo := (m1.toNat - 48) * 10 + (m2.toNat - 48)
      let da := (d1.toNat - 48) * 10 + (d2.toNat - 48)
      if 1 ≤ mo ∧ mo ≤ 12 ∧ 1 ≤ da ∧ da ≤ daysIn mo y then
        some ⟨y, mo, da, 0, 0, 0, 0, 0⟩
      else none
    else none
  | _ => none

/-- Embeds `parseDate` (cmd/filters.go): try RFC 3339 first, then the bare
date layout; if both fail, return the (RFC 3339) error.  The Go error
value is abstracted to `Unit` since callers only branch on its presence. -/
def parseDate (s : String) : Except Unit Timestamp :=
  match goParseRFC3339 s with
  | some t => .ok t
  | none =>
    match goParseBareDate s with
    | some t => .ok t
    | none => .error ()

/-- Embeds `client.SearchOptions` (internal/client), as populated by
`parseFilterOptions`; zero values as in Go. -/
structure SearchOptions where
  fromA : String := ""
  toA : String := ""
  subject : String := ""
  hasAttachment : Bool := false
  unreadOnly : Bool := false
  flaggedOnly : Bool := false
  unflaggedOnly : Bool := false
  before : Option Timestamp := none
  after : Option Timestamp := none
  mailboxID : String := ""
  deriving DecidableEq, Repr

/-- The non-failing first phase of `parseFilterOptions` (cmd/filters.go
lines 75–91): from/to/subject strings (to only on commands where `--to` is
the recipient filter) and the four booleans. -/
def baseOptions (fs : FlagSet) : SearchOptions :=
  let o : SearchOptions := {}
  let o := if trimSpace fs.fromF.value ≠ "" then { o with fromA := fs.fromF.value } else o
  let o := if isRecipientToFilterFlag fs = true then
             (if trimSpace fs.toF.value ≠ "" then { o with toA := fs.toF.value } else o)
           else o
  let o := if trimSpace fs.subjectF.value ≠ "" then { o with subject := fs.subjectF.value } else o
  { o with hasAttachment := fs.hasAttachmentF.value,
           unreadOnly := fs.unreadF.value,
           flaggedOnly := fs.flaggedF.value,
           unflaggedOnly := fs.unflaggedF.value }

/-- The `--before` step of `parseFilterOptions` (lines 97–105): skipped
when the trimmed value is empty, otherwise the trimmed value must parse as
a date. -/
def applyBefore (fs : FlagSet) (o : SearchOptions) : Except CmdError SearchOptions :=
  if trimSpace fs.beforeF.value = "" then .ok o
  else
    match parseDate (trimSpace fs.beforeF.value) with
    | .error _ => .error (.invalidDate "before")
    | .ok t => .ok { o with before := some t }

/-- The `--after` step of `parseFilterOptions` (lines 107–115). -/
def applyAfter (fs : FlagSet) (o : SearchOptions) : Except CmdError SearchOptions :=
  if trimSpace fs.afterF.value = "" then .ok o
  else
    match parseDate (trimSpace fs.afterF.value) with
    | .error _ => .error (.invalidDate "after")
    | .ok t => .ok { o with after := some t }

/-- Embeds `parseFilterOptions` (cmd/filters.go).  `resolve` is the
`client.ResolveMailboxID` oracle; the second component is the trace of
network calls issued.  Order as in Go: build the plain fields, reject
flagged+unflagged, parse `--before`, parse `--after`, and only then — for
a non-blank `--mailbox` — perform the network lookup. -/
def parseFilterOptions (fs : FlagSet) (resolve : String → Except String String) :
    Except CmdError SearchOptions × List Call :=
  let opts := baseOptions fs
  if opts.flaggedOnly && opts.unflaggedOnly then (.error .conflictingFilters, [])
  else
    match applyBefore fs opts with
    | .error e => (.error e, [])
    | .ok opts1 =>
      match applyAfter fs opts1 with
      | .error e => (.error e, [])
      | .ok opts2 =>
        if trimSpace fs.mailboxF.value = "" then (.ok opts2, [])
        else
          match resolve (trimSpace fs.mailboxF.value) with
          | .error msg =>
            (.error (.mailboxNotFound msg), [.resolveMailbox (trimSpace fs.mailboxF.value)])
          | .ok mid =>
            (.ok { opts2 with mailboxID := mid }, [.resolveMailbox (trimSpace fs.mailboxF.value)])

/-- Embeds `validateIDsOrFilters` (cmd/filters.go): exactly one of email
IDs or filter flags, then the early flagged/unflagged exclusivity check.
This function takes no client and issues no network call. -/
def validateIDsOrFilters (fs : FlagSet) (args : List String) : Except CmdError Unit :=
  let hasIDs : Bool := decide (args.length > 0)
  let hasFilters : Bool := hasFilterFlags fs
  if hasIDs && hasFilters then .error .ambiguousTargets
  else if !hasIDs && !hasFilters then .error .noTargets
  else if fs.flaggedF.value && fs.unflaggedF.value then .error .conflictingFilters
  else .ok ()

/-- Embeds `resolveEmailIDs` (cmd/filters.go): explicit args are returned
as-is; otherwise filters are parsed and `QueryEmailIDs` (the `query`
oracle) is consulted, with an empty result turned into an error. -/
def resolveEmailIDs (fs : FlagSet) (args : List String)
    (resolve : String → Except String String)
    (query : SearchOptions → Except String (List String)) :
    Except CmdError (List String) × List Call :=
  if args.length > 0 then (.ok args, [])
  else
    match parseFilterOptions fs resolve with
    | (.error e, tr) => (.error e, tr)
    | (.ok opts, tr) =>
      match query opts with
      | .error msg => (.error (.jmapError msg), tr ++ [.queryEmails])
      | .ok ids =>
        if ids.length = 0 then (.error .noMatches, tr ++ [.queryEmails])
        else (.ok ids, tr ++ [.queryEmails])

/-- Modelled from the spec: the per-command `RunE` wiring (cmd/archive.go,
cmd/move.go, … — not under src/) runs `validateIDsOrFilters` first, then
creates the authenticated client (`newClient`, the first network-touching
step), then resolves targets.  Spec §7: parse/validation errors are
detected before any network call and abort the invocation. -/
def runAction (fs : FlagSet) (args : List String)
    (resolve : String → Except String String)
    (query : SearchOptions → Except String (List String)) :
    Except CmdError (List String) × List Call :=
  match validateIDsOrFilters fs args with
  | .error e => (.error e, [])
  | .ok _ =>
    let p := resolveEmailIDs fs args resolve query
    (p.1, .createClient :: p.2)

/-- A remote mailbox, as in `internal/types` and the plan document: stable
id, mutable display name, optional system role. -/
structure Mailbox where
  id : String
  name : String
  role : Option String
  deriving DecidableEq, Repr

/-- Modelled from the spec: `ValidateTargetMailbox` in
`internal/client/safety.go` is not under src/ (only the plan document and
spec describe it).  Spec §4.4: for `move`, the resolved destination must
not have role `trash` and its name must not case-insensitively equal
"Trash", "Deleted Items" or "Deleted Messages"; violation fails with
`ForbiddenDestination`.  Case-insensitive comparison is modelled by
lowercasing the name. -/
def ValidateTargetMailbox (mb : Mailbox) : Except CmdError Unit :=
  if mb.role = some "trash" ∨
      lowerString mb.name ∈ ["trash", "deleted items", "deleted messages"] then
    .error .forbiddenDestination
  else .ok ()

/-- Modelled from the spec: the `move` pipeline (cmd/move.go and
internal/client, not under src/).  Per the plan document and spec §4.4 and
§8 it first resolves the target mailbox (a read-only `Mailbox/get`),
applies `ValidateTargetMailbox`, and only on acceptance issues the
mutating `Email/set` call (the `applySet` oracle). -/
def MoveEmails (resolve : String → Except String Mailbox)
    (applySet : List String → Mailbox → Except String (List String))
    (ids : List String) (destName : String) :
    Except CmdError (List String) × List Call :=
  match resolve destName with
  | .error msg => (.error (.mailboxNotFound msg), [.resolveMailbox destName])
  | .ok mb =>
    match ValidateTargetMailbox mb with
    | .error e => (.error e, [.resolveMailbox destName])
    | .ok _ =>
      match applySet ids mb with
      | .error msg => (.error (.jmapError msg), [.resolveMailbox destName, .emailSet])
      | .ok moved => (.ok moved, [.resolveMailbox destName, .emailSet])

/-- A proposed draft email, keeping exactly the fields the draft safety
gate inspects: the `MailboxIDs` map and the `Keywords` map of the
`email.Email` object.  Go maps are modelled as association lists (key
uniqueness is irrelevant to the gate: it checks entry count and one
lookup). -/
structure DraftEmail where
  mailboxIds : List (String × Bool)
  keywords : List (String × Bool)
  deriving DecidableEq, Repr

/-- A proposed `Email/set` request, keeping exactly the shape the draft
safety gate inspects: the `Create` map (creation-id keyed), and the key
sets of `Update` and `Destroy` (only emptiness matters to the gate). -/
structure EmailSetRequest where
  create : List (String × DraftEmail)
  update : List String
  destroy : List String
  deriving DecidableEq, Repr

/-- Looks a key up in an association-list map and reports whether it is
bound to `true` — the Go expression `m[k]` on a `map[ID]bool`. -/
def mapHasTrue (m : List (String × Bool)) (k : String) : Bool :=
  match m.lookup k with
  | some true => true
  | _ => false

/-- Modelled from the spec: `ValidateSetForDraft` in
`internal/client/safety.go` is not under src/ (only the draft plan
document and spec describe it).  Checks, in the documented order: Destroy
empty, Update empty, Create has exactly one entry, that email targets
exactly the Drafts mailbox, and it carries the `$draft` keyword set true.
Any violation is `UnsafeDraftRequest`. -/
def ValidateSetForDraft (req : EmailSetRequest) (draftsMailboxID : String) :
    Except CmdError Unit :=
  if ¬ req.destroy.isEmpty then .error .unsafeDraftRequest
  else if ¬ req.update.isEmpty then .error .unsafeDraftRequest
  else
    match req.create with
    | [(_, e)] =>
      if e.mailboxIds.length = 1 ∧ mapHasTrue e.mailboxIds draftsMailboxID = true then
        if mapHasTrue e.keywords "$draft" = true then .ok ()
        else .error .unsafeDraftRequest
      else .error .unsafeDraftRequest
    | _ => .error .unsafeDraftRequest

/-- Modelled from the spec: `CreateDraft` (internal/client/draft.go, not
under src/) calls `ValidateSetForDraft` on the fully built request before
execution and performs the `Email/set` call only on acceptance. -/
def CreateDraft (doSet : EmailSetRequest → Except String String)
    (req : EmailSetRequest) (draftsMailboxID : String) :
    Except CmdError String × List Call :=
  match ValidateSetForDraft req draftsMailboxID with
  | .error e => (.error e, [])
  | .ok _ =>
    match doSet req with
    | .error msg => (.error (.jmapError msg), [.emailSet])
    | .ok newID => (.ok newID, [.emailSet])

/-- The string filter flags of a command, in `filterFlagNames` order; the
`--to` flag belongs to this family exactly on commands where it is the
recipient filter rather than the move destination. -/
def stringFilterFlags (fs : FlagSet) : List StrFlag :=
  [fs.mailboxF, fs.fromF] ++
  (if isRecipientToFilterFlag fs = true then [fs.toF] else []) ++
  [fs.subjectF, fs.beforeF, fs.afterF]

/-- The boolean filter flags of a command, in `filterFlagNames` order. -/
def boolFilterFlags (fs : FlagSet) : List BoolFlag :=
  [fs.hasAttachmentF, fs.unreadF, fs.flaggedF, fs.unflaggedF]

/-! Helper lemmas about the embedded definitions. -/

theorem baseOptions_flaggedOnly (fs : FlagSet) :
    (baseOptions fs).flaggedOnly = fs.flaggedF.value := rfl

theorem baseOptions_unflaggedOnly (fs : FlagSet) :
    (baseOptions fs).unflaggedOnly = fs.unflaggedF.value := rfl

theorem baseOptions_toA_dest (fs : FlagSet) (h : fs.toIsRecipientFilter = false) :
    (baseOptions fs).toA = "" := by
  simp only [baseOptions, isRecipientToFilterFlag, h, Bool.false_eq_true, if_false,
    apply_ite SearchOptions.toA]
  simp

theorem baseOptions_toA_recipient (fs : FlagSet) (h : fs.toIsRecipientFilter = true)
    (hv : trimSpace fs.toF.value ≠ "") :
    (baseOptions fs).toA = fs.toF.value := by
  simp only [baseOptions, isRecipientToFilterFlag, h, if_true, hv,
    apply_ite SearchOptions.toA]
  simp [hv]

theorem applyBefore_toA (fs : FlagSet) (o o' : SearchOptions)
    (h : applyBefore fs o = .ok o') : o'.toA = o.toA := by
  unfold applyBefore at h
  split at h
  · simp only [Except.ok.injEq] at h
    subst h; rfl
  · split at h
    · exact absurd h (by simp)
    · simp only [Except.ok.injEq] at h
      subst h; rfl

theorem applyAfter_toA (fs : FlagSet) (o o' : SearchOptions)
    (h : applyAfter fs o = .ok o') : o'.toA = o.toA := by
  unfold applyAfter at h
  split at h
  · simp only [Except.ok.injEq] at h
    subst h; rfl
  · split at h
    · exact absurd h (by simp)
    · simp only [Except.ok.injEq] at h
      subst h; rfl

theorem parseFilterOptions_ok_toA (fs : FlagSet) (r : String → Except String String)
    (o : SearchOptions) (h : (parseFilterOptions fs r).1 = .ok o) :
    o.toA = (baseOptions fs).toA := by
  by_cases hC : ((baseOptions fs).flaggedOnly && (baseOptions fs).unflaggedOnly) = true
  · simp [parseFilterOptions, hC] at h
  · rcases hB : applyBefore fs (baseOptions fs) with e | opts1
    · simp [parseFilterOptions, hC, hB] at h
    · rcases hA : applyAfter fs opts1 with e | opts2
      · simp [parseFilterOptions, hC, hB, hA] at h
      · by_cases hM : trimSpace fs.mailboxF.value = ""
        · simp [parseFilterOptions, hC, hB, hA, hM] at h
          subst h
          rw [applyAfter_toA fs opts1 opts2 hA, applyBefore_toA fs (baseOptions fs) opts1 hB]
        · rcases hR : r (trimSpace fs.mailboxF.value) with msg | mid
          · simp [parseFilterOptions, hC, hB, hA, hM, hR] at h
          · simp [parseFilterOptions, hC, hB, hA, hM, hR] at h
            subst h
            show opts2.toA = _
            rw [applyAfter_toA fs opts1 opts2 hA, applyBefore_toA fs (baseOptions fs) opts1 hB]

theorem parseFilterOptions_preNet_error (fs : FlagSet) (r : String → Except String String)
    (e : CmdError) (h : (parseFilterOptions fs r).1 = .error e)
    (he : e = .conflictingFilters ∨ ∃ w, e = .invalidDate w) :
    (parseFilterOptions fs r).2 = [] := by
  by_cases hC : ((baseOptions fs).flaggedOnly && (baseOptions fs).unflaggedOnly) = true
  · simp [parseFilterOptions, hC]
  · rcases hB : applyBefore fs (baseOptions fs) with e' | opts1
    · simp [parseFilterOptions, hC, hB]
    · rcases hA : applyAfter fs opts1 with e' | opts2
      · simp [parseFilterOptions, hC, hB, hA]
      · by_cases hM : trimSpace fs.mailboxF.value = ""
        · simp [parseFilterOptions, hC, hB, hA, hM]
        · rcases hR : r (trimSpace fs.mailboxF.value) with msg | mid
          · simp [parseFilterOptions, hC, hB, hA, hM, hR] at h
            rcases he with rfl | ⟨w, rfl⟩ <;> simp at h
          · simp [parseFilterOptions, hC, hB, hA, hM, hR] at h


/-! Claim theorems. -/

/-- Claim C4: for every filter-specification input in which both the
flagged and the unflagged filter are true, `parseFilterOptions` fails with
the ConflictingFilters error, regardless of the values of all other
fields — and it does so without any network call. -/
theorem conflicting_filters_always_rejected (fs : FlagSet)
    (resolve : String → Except String String)
    (hf : fs.flaggedF.value = true) (hu : fs.unflaggedF.value = true) :
    parseFilterOptions fs resolve = (.error .conflictingFilters, []) := by
  have h1 : (baseOptions fs).flaggedOnly = true := by rw [baseOptions_flaggedOnly, hf]
  have h2 : (baseOptions fs).unflaggedOnly = true := by rw [baseOptions_unflaggedOnly, hu]
  simp [parseFilterOptions, h1, h2]

/-- Witness for C4 at a concrete input: both boolean flags true, other
fields populated, the resolver oracle arbitrary. -/
theorem conflicting_filters_always_rejected_witness :
    parseFilterOptions
        { mailboxF := ⟨true, "inbox"⟩, fromF := ⟨true, "a@x"⟩,
          subjectF := ⟨true, "hi"⟩, flaggedF := ⟨true, true⟩,
          unflaggedF := ⟨true, true⟩ }
        (fun _ => .ok "mb1") =
      (.error .conflictingFilters, []) :=
  conflicting_filters_always_rejected _ _ rfl rfl

/-- Claim C9: when positional email identifiers are supplied,
`resolveEmailIDs` returns exactly that identifier list, unmodified and in
order, and issues no network call (no query, no existence validation) —
for every choice of the client oracles. -/
theorem explicit_ids_returned_verbatim (fs : FlagSet) (args : List String)
    (resolve : String → Except String String)
    (query : SearchOptions → Except String (List String))
    (h : args ≠ []) :
    resolveEmailIDs fs args resolve query = (.ok args, []) := by
  unfold resolveEmailIDs
  rw [if_pos (List.length_pos.mpr h)]

/-- Witness for C9 at a concrete input. -/
theorem explicit_ids_returned_verbatim_witness :
    resolveEmailIDs {} ["M1", "M2"] (fun _ => .error "e") (fun _ => .error "e") =
      (.ok ["M1", "M2"], []) :=
  explicit_ids_returned_verbatim {} ["M1", "M2"] _ _ (by simp)

/-- Claim C3, counterexample: with no positional identifiers and with the
flagged and unflagged filters both set (so active filters are present and
identifiers are not), the claim asserts that target validation passes, but
`validateIDsOrFilters` returns the ConflictingFilters error. -/
theorem target_validation_counterexample :
    hasFilterFlags { flaggedF := ⟨true, true⟩, unflaggedF := ⟨true, true⟩ } = true ∧
    validateIDsOrFilters { flaggedF := ⟨true, true⟩, unflaggedF := ⟨true, true⟩ }
        ([] : List String) = .error .conflictingFilters ∧
    validateIDsOrFilters { flaggedF := ⟨true, true⟩, unflaggedF := ⟨true, true⟩ }
        ([] : List String) ≠ .ok () := by
  refine ⟨rfl, rfl, ?_⟩
  intro hcontra
  exact absurd (rfl.trans hcontra :
    (.error .conflictingFilters : Except CmdError Unit) = .ok ()) (by simp)

/-- Claim C3 as amended: supplying both identifiers and active filters
fails with AmbiguousTargets; supplying neither fails with NoTargets; in
the remaining cases validation fails with ConflictingFilters when the
flagged and unflagged booleans are both true, and passes otherwise. -/
theorem target_validation_cases (fs : FlagSet) (args : List String) :
    (args ≠ [] → hasFilterFlags fs = true →
      validateIDsOrFilters fs args = .error .ambiguousTargets) ∧
    (args = [] → hasFilterFlags fs = false →
      validateIDsOrFilters fs args = .error .noTargets) ∧
    ((args ≠ [] ∧ hasFilterFlags fs = false) ∨ (args = [] ∧ hasFilterFlags fs = true) →
      ((fs.flaggedF.value && fs.unflaggedF.value) = true →
        validateIDsOrFilters fs args = .error .conflictingFilters) ∧
      ((fs.flaggedF.value && fs.unflaggedF.value) = false →
        validateIDsOrFilters fs args = .ok ())) := by
  refine ⟨?_, ?_, ?_⟩
  · intro h1 h2
    simp [validateIDsOrFilters, List.length_pos.mpr h1, h2]
  · intro h1 h2
    subst h1
    simp [validateIDsOrFilters, h2]
  · rintro (⟨h1, h2⟩ | ⟨h1, h2⟩)
    · constructor <;> intro hb <;>
        simp [validateIDsOrFilters, List.length_pos.mpr h1, h2, hb]
    · subst h1
      constructor <;> intro hb <;>
        simp [validateIDsOrFilters, h2, hb]

/-- Witness for C3 as amended, at concrete inputs covering all four
branches. -/
theorem target_validation_cases_witness :
    validateIDsOrFilters { unreadF := ⟨true, true⟩ } ["M1"] = .error .ambiguousTargets ∧
    validateIDsOrFilters {} ([] : List String) = .error .noTargets ∧
    validateIDsOrFilters { flaggedF := ⟨true, true⟩, unflaggedF := ⟨true, true⟩ }
        ([] : List String) = .error .conflictingFilters ∧
    validateIDsOrFilters {} ["M1"] = .ok () :=
  ⟨(target_validation_cases { unreadF := ⟨true, true⟩ } ["M1"]).1 (by simp) rfl,
   (target_validation_cases {} []).2.1 rfl rfl,
   ((target_validation_cases { flaggedF := ⟨true, true⟩, unflaggedF := ⟨true, true⟩ }
      []).2.2 (.inr ⟨rfl, rfl⟩)).1 rfl,
   ((target_validation_cases {} ["M1"]).2.2 (.inl ⟨by simp, rfl⟩)).2 rfl⟩

/-- Claim C6: every parse/validation error aborts the invocation before
any network call.  First, when `validateIDsOrFilters` fails, the whole
action pipeline stops with an empty call trace — in particular before
client creation.  Second, when `parseFilterOptions` fails with the
conflicting-filter or an invalid-date error, its network-call trace is
empty: those checks run before the mailbox-resolution lookup. -/
theorem validation_errors_precede_network (fs : FlagSet) (args : List String)
    (resolve : String → Except String String)
    (query : SearchOptions → Except String (List String)) :
    (∀ e, validateIDsOrFilters fs args = .error e →
      runAction fs args resolve query = (.error e, [])) ∧
    (∀ e, (parseFilterOptions fs resolve).1 = .error e →
      (e = .conflictingFilters ∨ ∃ w, e = .invalidDate w) →
      (parseFilterOptions fs resolve).2 = []) := by
  constructor
  · intro e h
    unfold runAction
    rw [h]
  · intro e h he
    exact parseFilterOptions_preNet_error fs resolve e h he

/-- Witness for C6 at concrete inputs: a NoTargets validation failure
stops the pipeline with an empty trace, and a conflicting-filter parse
failure has an empty trace. -/
theorem validation_errors_precede_network_witness :
    runAction {} ([] : List String) (fun _ => .ok "mb1") (fun _ => .ok ["a"]) =
      (.error .noTargets, []) ∧
    (parseFilterOptions { flaggedF := ⟨true, true⟩, unflaggedF := ⟨true, true⟩ }
        (fun _ => .ok "mb1")).2 = [] :=
  ⟨(validation_errors_precede_network {} [] (fun _ => .ok "mb1") (fun _ => .ok ["a"])).1
      .noTargets rfl,
   (validation_errors_precede_network
      { flaggedF := ⟨true, true⟩, unflaggedF := ⟨true, true⟩ } []
      (fun _ => .ok "mb1") (fun _ => .ok ["a"])).2
      .conflictingFilters rfl (.inl rfl)⟩

/-! Helper lemmas for the safety-gate and date-parsing claims. -/

theorem mapHasTrue_singleton (d : String) (m : List (String × Bool)) :
    (m.length = 1 ∧ mapHasTrue m d = true) ↔ m = [(d, true)] := by
  constructor
  · rintro ⟨hl, hm⟩
    obtain ⟨⟨k, b⟩, rfl⟩ := List.length_eq_one.mp hl
    by_cases hdk : d = k
    · subst hdk
      cases b
      · simp [mapHasTrue, List.lookup] at hm
      · rfl
    · simp [mapHasTrue, List.lookup, beq_eq_false_iff_ne.mpr hdk] at hm
  · rintro rfl
    simp [mapHasTrue, List.lookup]

theorem validateSetForDraft_total (req : EmailSetRequest) (d : String) :
    ValidateSetForDraft req d = .ok () ∨
    ValidateSetForDraft req d = .error .unsafeDraftRequest := by
  unfold ValidateSetForDraft
  split
  · exact .inr rfl
  · split
    · exact .inr rfl
    · split
      · split
        · split
          · exact .inl rfl
          · exact .inr rfl
        · exact .inr rfl
      · exact .inr rfl

theorem goParseBareDate_shape (s : String) (t : Timestamp)
    (h : goParseBareDate s = some t) :
    goParseRFC3339 s = none ∧ t.hour = 0 ∧ t.minute = 0 ∧ t.second = 0 ∧
      t.nanos = 0 ∧ t.offsetMinutes = 0 := by
  unfold goParseBareDate at h
  split at h
  · rename_i y1 y2 y3 y4 s1 m1 m2 s2 d1 d2 heq
    split at h
    · rename_i hcond
      obtain ⟨hs1, hs2, hy1, hy2, hy3, hy4, hm1, hm2, hd1, hd2⟩ := hcond
      dsimp only at h
      split at h
      · simp only [Option.some.injEq] at h
        subst h
        refine ⟨?_, rfl, rfl, rfl, rfl, rfl⟩
        have hfast : parseRFC3339fast s = none := by
          unfold parseRFC3339fast
          have hlen : s.length < 19 := by
            show s.data.length < 19
            rw [heq]
            simp
          rw [if_pos hlen]
        have hgen : parseRFC3339general s = none := by
          unfold parseRFC3339general
          rw [heq]
          simp [read4, read2, expect, digitVal, Option.bind,
            hy1, hy2, hy3, hy4, hm1, hm2, hd1, hd2, hs1, hs2]
        unfold goParseRFC3339
        rw [hfast, hgen]
      · exact absurd h (by simp)
    · exact absurd h (by simp)
  · exact absurd h (by simp)

/-- Claim C1: for every move request whose resolved destination mailbox
has role trash, or whose lowercased name is "trash", "deleted items" or
"deleted messages", the pipeline fails with ForbiddenDestination and its
call trace contains no mutating call — for every applySet oracle, so no
mutation can have been performed. -/
theorem move_forbidden_destination_no_mutation
    (resolve : String → Except String Mailbox)
    (applySet : List String → Mailbox → Except String (List String))
    (ids : List String) (destName : String) (mb : Mailbox)
    (hres : resolve destName = .ok mb)
    (hforb : mb.role = some "trash" ∨
      lowerString mb.name ∈ ["trash", "deleted items", "deleted messages"]) :
    (MoveEmails resolve applySet ids destName).1 = .error .forbiddenDestination ∧
    ∀ c ∈ (MoveEmails resolve applySet ids destName).2, c.isMutating = false := by
  have hv : ValidateTargetMailbox mb = .error .forbiddenDestination := by
    unfold ValidateTargetMailbox
    rw [if_pos hforb]
  constructor
  · simp [MoveEmails, hres, hv]
  · intro c hc
    simp [MoveEmails, hres, hv] at hc
    subst hc
    rfl

/-- Witness for C1 at a concrete input: moving to a mailbox named
"Deleted Items" (no role) is rejected with an all-read-only trace. -/
theorem move_forbidden_destination_no_mutation_witness :
    (MoveEmails (fun _ => .ok ⟨"mb9", "Deleted Items", none⟩)
        (fun ids _ => .ok ids) ["M1"] "Deleted Items").1 =
      .error .forbiddenDestination ∧
    ∀ c ∈ (MoveEmails (fun _ => .ok ⟨"mb9", "Deleted Items", none⟩)
        (fun ids _ => .ok ids) ["M1"] "Deleted Items").2, c.isMutating = false :=
  move_forbidden_destination_no_mutation _ _ ["M1"] "Deleted Items"
    ⟨"mb9", "Deleted Items", none⟩ rfl (by decide)

/-- Claim C2: the draft safety gate accepts a payload iff it carries
exactly one create entry whose mailbox set is exactly the drafts-mailbox
singleton and whose draft flag is true, with update and destroy both
empty; and whenever the gate rejects, the result is UnsafeDraftRequest
and the draft pipeline issues no call at all. -/
theorem draft_gate_characterization (req : EmailSetRequest) (draftsID : String) :
    (ValidateSetForDraft req draftsID = .ok () ↔
      ((∃ k e, req.create = [(k, e)] ∧ e.mailboxIds = [(draftsID, true)] ∧
        mapHasTrue e.keywords "$draft" = true) ∧
      req.update = [] ∧ req.destroy = [])) ∧
    (∀ doSet, ValidateSetForDraft req draftsID ≠ .ok () →
      CreateDraft doSet req draftsID = (.error .unsafeDraftRequest, [])) := by
  constructor
  · constructor
    · intro h
      unfold ValidateSetForDraft at h
      split at h
      · exact absurd h (by simp)
      · split at h
        · exact absurd h (by simp)
        · rename_i hdes hupd
          split at h
          · rename_i k e hcr
            split at h
            · rename_i hmb
              split at h
              · rename_i hkw
                refine ⟨⟨k, e, hcr, ?_, hkw⟩, ?_, ?_⟩
                · exact (mapHasTrue_singleton draftsID e.mailboxIds).mp hmb
                · simpa using hupd
                · simpa using hdes
              · exact absurd h (by simp)
            · exact absurd h (by simp)
          · exact absurd h (by simp)
    · rintro ⟨⟨k, e, hcr, hmb, hkw⟩, hupd, hdes⟩
      have h1 : mapHasTrue [(draftsID, true)] draftsID = true := by
        simp [mapHasTrue, List.lookup]
      simp [ValidateSetForDraft, hcr, hupd, hdes, hmb, h1, hkw]
  · intro doSet hne
    rcases validateSetForDraft_total req draftsID with h | h
    · exact absurd h hne
    · unfold CreateDraft
      rw [h]

/-- Witness for C2 at concrete inputs: a well-formed single-create draft
payload is accepted, and the same payload with a destroy entry added is
rejected with no call issued. -/
theorem draft_gate_characterization_witness :
    ValidateSetForDraft
        ⟨[("d", ⟨[("mbD", true)], [("$draft", true)]⟩)], [], []⟩ "mbD" = .ok () ∧
    CreateDraft (fun _ => .ok "M9")
        ⟨[("d", ⟨[("mbD", true)], [("$draft", true)]⟩)], [], ["x"]⟩ "mbD" =
      (.error .unsafeDraftRequest, []) :=
  ⟨((draft_gate_characterization
      ⟨[("d", ⟨[("mbD", true)], [("$draft", true)]⟩)], [], []⟩ "mbD").1).mpr
      ⟨⟨"d", ⟨[("mbD", true)], [("$draft", true)]⟩, rfl, rfl, by decide⟩, rfl, rfl⟩,
   (draft_gate_characterization
      ⟨[("d", ⟨[("mbD", true)], [("$draft", true)]⟩)], [], ["x"]⟩ "mbD").2
      (fun _ => .ok "M9") (by decide)⟩

/-- Claim C5: with no positional identifiers and a successfully parsed
filter, a query returning zero identifiers makes target resolution fail
with NoMatches rather than return an empty list, and a query returning
one or more identifiers yields exactly those identifiers in query
order. -/
theorem filter_query_resolution (fs : FlagSet)
    (resolve : String → Except String String)
    (query : SearchOptions → Except String (List String))
    (opts : SearchOptions)
    (hok : (parseFilterOptions fs resolve).1 = .ok opts) :
    (query opts = .ok [] → (resolveEmailIDs fs [] resolve query).1 = .error .noMatches) ∧
    (∀ ids, ids ≠ [] → query opts = .ok ids →
      (resolveEmailIDs fs [] resolve query).1 = .ok ids) := by
  rcases hP : parseFilterOptions fs resolve with ⟨res, tr⟩
  rw [hP] at hok
  replace hok : res = .ok opts := hok
  subst hok
  constructor
  · intro hq
    simp [resolveEmailIDs, hP, hq]
  · intro ids hne hq
    simp [resolveEmailIDs, hP, hq, List.length_eq_zero, hne]

/-- Witness for C5 at concrete inputs: an unread-only filter with an
empty query result fails with NoMatches; with results it returns them. -/
theorem filter_query_resolution_witness :
    (resolveEmailIDs { unreadF := ⟨true, true⟩ } [] (fun _ => .ok "mb1")
        (fun _ => .ok [])).1 = .error .noMatches ∧
    (resolveEmailIDs { unreadF := ⟨true, true⟩ } [] (fun _ => .ok "mb1")
        (fun _ => .ok ["A", "B"])).1 = .ok ["A", "B"] :=
  ⟨(filter_query_resolution { unreadF := ⟨true, true⟩ } (fun _ => .ok "mb1")
      (fun _ => .ok []) { unreadOnly := true } (by decide)).1 rfl,
   (filter_query_resolution { unreadF := ⟨true, true⟩ } (fun _ => .ok "mb1")
      (fun _ => .ok ["A", "B"]) { unreadOnly := true } (by decide)).2
      ["A", "B"] (by simp) rfl⟩

/-- Claim C8: an unset string flag, a whitespace-only string flag and an
explicitly false boolean flag are all treated as absent: `hasFilterFlags`
holds iff some string filter flag was explicitly set to a non-whitespace
value or some boolean filter flag was explicitly set to true. -/
theorem active_filters_characterization (fs : FlagSet) :
    hasFilterFlags fs = true ↔
      ((∃ f ∈ stringFilterFlags fs, f.changed = true ∧ trimSpace f.value ≠ "") ∨
       (∃ f ∈ boolFilterFlags fs, f.changed = true ∧ f.value = true)) := by
  cases h : fs.toIsRecipientFilter <;>
    simp [hasFilterFlags, stringFilterFlags, boolFilterFlags, strActive, boolActive,
      isRecipientToFilterFlag, h, bne_iff_ne, exists_eq_or_imp, exists_eq_left, or_assoc]

/-- Claim C10: when the registered `--to` flag is the move destination
flag rather than the recipient filter, its value never counts toward the
presence of active filters and the parsed To field stays empty; when it
is the recipient filter, a successfully parsed filter set carries its
value as the recipient filter. -/
theorem destination_to_flag_isolation (fs : FlagSet)
    (resolve : String → Except String String) :
    (fs.toIsRecipientFilter = false →
      hasFilterFlags fs = hasFilterFlags { fs with toF := {} } ∧
      (∀ o, (parseFilterOptions fs resolve).1 = .ok o → o.toA = "")) ∧
    (fs.toIsRecipientFilter = true → trimSpace fs.toF.value ≠ "" →
      ∀ o, (parseFilterOptions fs resolve).1 = .ok o → o.toA = fs.toF.value) := by
  constructor
  · intro h
    constructor
    · simp [hasFilterFlags, isRecipientToFilterFlag, strActive, h]
    · intro o ho
      rw [parseFilterOptions_ok_toA fs resolve o ho, baseOptions_toA_dest fs h]
  · intro h hv o ho
    rw [parseFilterOptions_ok_toA fs resolve o ho, baseOptions_toA_recipient fs h hv]

/-- Witness for C10 at concrete inputs: on a move-style command a set
`--to Archive` leaves the filter presence and the parsed To field
unaffected; on a search-style command `--to bob@example.com` is kept. -/
theorem destination_to_flag_isolation_witness :
    (hasFilterFlags { toF := ⟨true, "Archive"⟩, unreadF := ⟨true, true⟩, toIsRecipientFilter := false } =
      hasFilterFlags { toF := {}, unreadF := ⟨true, true⟩, toIsRecipientFilter := false }) ∧
    SearchOptions.toA { unreadOnly := true } = "" ∧
    SearchOptions.toA { toA := "bob@example.com" } = "bob@example.com" :=
  ⟨((destination_to_flag_isolation
      { toF := ⟨true, "Archive"⟩, unreadF := ⟨true, true⟩, toIsRecipientFilter := false }
      (fun _ => .ok "mb1")).1 rfl).1,
   ((destination_to_flag_isolation
      { toF := ⟨true, "Archive"⟩, unreadF := ⟨true, true⟩, toIsRecipientFilter := false }
      (fun _ => .ok "mb1")).1 rfl).2 { unreadOnly := true } (by decide),
   (destination_to_flag_isolation { toF := ⟨true, "bob@example.com"⟩ }
      (fun _ => .ok "mb1")).2 rfl (by decide) { toA := "bob@example.com" } (by decide)⟩

/-- Claim C7, counterexample: the date-filter string
"2026-01-15T10:30:00,5Z" is not in RFC 3339 timestamp form (RFC 3339
requires a period before fractional seconds, and the strict RFC 3339
parser rejects it) and is not a bare YYYY-MM-DD date, yet the program
parses it successfully through the general layout parser that
`time.Parse` falls back to — so "every other string fails with an
invalid-date error" is false. -/
theorem parse_date_leniency_counterexample :
    parseRFC3339fast "2026-01-15T10:30:00,5Z" = none ∧
    goParseBareDate "2026-01-15T10:30:00,5Z" = none ∧
    parseDate "2026-01-15T10:30:00,5Z" =
      .ok ⟨2026, 1, 15, 10, 30, 0, 500000000, 0⟩ ∧
    parseDate "2026-01-15T10:30:00,5Z" ≠ .error () := by
  refine ⟨by decide, by decide, by decide, ?_⟩
  intro hcontra
  exact absurd ((by decide :
      parseDate "2026-01-15T10:30:00,5Z" =
        .ok ⟨2026, 1, 15, 10, 30, 0, 500000000, 0⟩).symm.trans hcontra) (by simp)

/-- Claim C7 as amended: a string in strict RFC 3339 timestamp form
parses to that timestamp; a bare YYYY-MM-DD calendar date is rejected by
the timestamp layout parse and parses to midnight UTC of that day; the
timestamp layout parse is lenient beyond RFC 3339 (the general-parser
fallback also accepts a one-digit hour, a comma fractional-second
separator, and unchecked numeric zone offsets), and a string accepted by
neither the timestamp layout parse nor the bare-date layout fails,
surfacing as the invalid-date error in filter parsing. -/
theorem parse_date_forms (s : String) :
    (∀ t, parseRFC3339fast s = some t →
      goParseRFC3339 s = some t ∧ parseDate s = .ok t) ∧
    (∀ t, goParseRFC3339 s = some t → parseDate s = .ok t) ∧
    (∀ t, goParseBareDate s = some t →
      goParseRFC3339 s = none ∧ parseDate s = .ok t ∧ t.hour = 0 ∧ t.minute = 0 ∧
      t.second = 0 ∧ t.nanos = 0 ∧ t.offsetMinutes = 0) ∧
    (goParseRFC3339 s = none → goParseBareDate s = none → parseDate s = .error ()) ∧
    (∀ fs o, trimSpace fs.beforeF.value = s → s ≠ "" → parseDate s = .error () →
      applyBefore fs o = .error (.invalidDate "before")) ∧
    (∀ fs o, trimSpace fs.afterF.value = s → s ≠ "" → parseDate s = .error () →
      applyAfter fs o = .error (.invalidDate "after")) := by
  have hfull : ∀ t, goParseRFC3339 s = some t → parseDate s = .ok t := by
    intro t h
    unfold parseDate
    rw [h]
  refine ⟨?_, hfull, ?_, ?_, ?_, ?_⟩
  · intro t h
    have hcomb : goParseRFC3339 s = some t := by
      unfold goParseRFC3339
      rw [h]
    exact ⟨hcomb, hfull t hcomb⟩
  · intro t h
    obtain ⟨hrfc, hh, hm, hs, hn, ho⟩ := goParseBareDate_shape s t h
    refine ⟨hrfc, ?_, hh, hm, hs, hn, ho⟩
    unfold parseDate
    rw [hrfc, h]
  · intro h1 h2
    unfold parseDate
    rw [h1, h2]
  · intro fs o hts hne hpd
    unfold applyBefore
    rw [hts, if_neg hne, hpd]
  · intro fs o hts hne hpd
    unfold applyAfter
    rw [hts, if_neg hne, hpd]

/-- Witness for C7 as amended, at concrete inputs: a strict RFC 3339
timestamp, a lenient comma-fraction timestamp, a bare date, and a
non-date string through both `parseDate` and the `--before` step. -/
theorem parse_date_forms_witness :
    parseDate "2026-01-15T10:30:00Z" = .ok ⟨2026, 1, 15, 10, 30, 0, 0, 0⟩ ∧
    parseDate "2026-01-15T3:30:00,25+24:00" = .ok ⟨2026, 1, 15, 3, 30, 0, 250000000, 1440⟩ ∧
    parseDate "2026-01-15" = .ok ⟨2026, 1, 15, 0, 0, 0, 0, 0⟩ ∧
    parseDate "next tuesday" = .error () ∧
    applyBefore { beforeF := ⟨true, "next tuesday"⟩ } {} =
      .error (.invalidDate "before") :=
  ⟨((parse_date_forms "2026-01-15T10:30:00Z").1 ⟨2026, 1, 15, 10, 30, 0, 0, 0⟩
      (by decide)).2,
   (parse_date_forms "2026-01-15T3:30:00,25+24:00").2.1
      ⟨2026, 1, 15, 3, 30, 0, 250000000, 1440⟩ (by decide),
   ((parse_date_forms "2026-01-15").2.2.1 ⟨2026, 1, 15, 0, 0, 0, 0, 0⟩ (by decide)).2.1,
   (parse_date_forms "next tuesday").2.2.2.1 (by decide) (by decide),
   (parse_date_forms "next tuesday").2.2.2.2.1 { beforeF := ⟨true, "next tuesday"⟩ } {}
      (by decide) (by decide) (by decide)⟩

end JM
